import Mathlib

/-!
Shallow embedding of the QBox trading-session classification engine
(`SESSION_DEFINITIONS`, `isWithinWindow`, `computeDstLabel`,
`getUsSessionSnapshot`, `getHkSessionSnapshot`, `listSessionsByMarket`).

The engine's only impure inputs are the JavaScript `Date` / `Intl` platform
primitives (civil-time projection, short time-zone names, UTC offsets and
locale formatting).  Those are modelled by an explicit environment record
`TzEnv`; everything after that point is a direct translation of the source.
Machine strings `"HH:MM"` are parsed by structurally recursive re-implementations
of `String.prototype.split(":")` / `parseInt(_, 10)` so that every definition
is executable by the kernel.
-/

namespace QBox

/-- Structural model of JS `string.split(c)` for a one-character separator:
splits a character list at every occurrence of `c`. -/
def splitOnChar (c : Char) : List Char → List (List Char)
  | [] => [[]]
  | a :: rest =>
    if a = c then [] :: splitOnChar c rest
    else
      match splitOnChar c rest with
      | [] => [[a]]
      | h :: t => (a :: h) :: t

/-- Accumulator loop for base-10 digit parsing; fails on any non-digit. -/
def parseDigitsAux : List Char → Nat → Option Nat
  | [], acc => some acc
  | c :: rest, acc =>
    if 48 ≤ c.toNat ∧ c.toNat ≤ 57 then
      parseDigitsAux rest (acc * 10 + (c.toNat - 48))
    else none

/-- Model of JS `parseInt(s, 10)` on the all-digit inputs the engine feeds it
(`"HH"` / `"MM"` pieces of the catalog): `none` plays the role of `NaN`. -/
def parseIntBase10 (s : String) : Option Nat :=
  match s.toList with
  | [] => none
  | cs => parseDigitsAux cs 0

/-- Model of JS `string.includes(sub)`: `listStartsWith s sub` checks a prefix
match at the current position. -/
def listStartsWith : List Char → List Char → Bool
  | _, [] => true
  | [], _ :: _ => false
  | a :: s, b :: t => (a == b) && listStartsWith s t

/-- Substring occurrence test behind `strIncludes`. -/
def listContainsSub : List Char → List Char → Bool
  | [], sub => sub.isEmpty
  | a :: rest, sub => listStartsWith (a :: rest) sub || listContainsSub rest sub

/-- JS `s.includes(sub)`. -/
def strIncludes (s sub : String) : Bool := listContainsSub s.toList sub.toList

/-- JS `s.toUpperCase()`, restricted to the ASCII letters that occur in the
time-zone abbreviations the engine inspects (`Char.toUpper` is ASCII-only). -/
def stringToUpper (s : String) : String := String.mk (s.toList.map Char.toUpper)

/-- The `market: "us" | "hk"` union type of the source. -/
inductive Market where
  | us
  | hk
deriving DecidableEq, BEq

/-- Source `interface TradingWindow { start: string; end: string }` — times as `"HH:MM"`. -/
structure TradingWindow where
  start : String
  «end» : String
deriving DecidableEq

/-- Source `interface TradingSessionDefinition` — one named session of one market.
`supportsDst?: boolean` and `description?: string` are optional fields. -/
structure TradingSessionDefinition where
  name : String
  market : Market
  timeZone : String
  windows : List TradingWindow
  supportsDst : Option Bool := none
  description : Option String := none
deriving DecidableEq

/-- Source `SESSION_DEFINITIONS[0]`: 美股盘前, 04:00–09:30 America/New_York. -/
def usPreMarketDef : TradingSessionDefinition :=
  { name := "美股盘前"
    market := .us
    timeZone := "America/New_York"
    windows := [{ start := "04:00", «end» := "09:30" }]
    description := some "常规交易日前的延长时段，允许挂单与撮合。" }

/-- Source `SESSION_DEFINITIONS[1]`: 美股盘中, 09:30–16:00 America/New_York. -/
def usRegularDef : TradingSessionDefinition :=
  { name := "美股盘中"
    market := .us
    timeZone := "America/New_York"
    windows := [{ start := "09:30", «end» := "16:00" }]
    description := some "纽交所与纳斯达克的正常开盘时段。" }

/-- Source `SESSION_DEFINITIONS[2]`: 美股盘后, 16:00–20:00 America/New_York. -/
def usAfterHoursDef : TradingSessionDefinition :=
  { name := "美股盘后"
    market := .us
    timeZone := "America/New_York"
    windows := [{ start := "16:00", «end» := "20:00" }]
    description := some "美股收盘后的延长时段，通常成交量较低。" }

/-- Source `SESSION_DEFINITIONS[3]`: 美股夜盘, 20:00–04:00 America/New_York (wraps midnight). -/
def usOvernightDef : TradingSessionDefinition :=
  { name := "美股夜盘"
    market := .us
    timeZone := "America/New_York"
    windows := [{ start := "20:00", «end» := "04:00" }]
    description := some "部分券商提供的隔夜交易时段，跨越午夜。" }

/-- Source `SESSION_DEFINITIONS[4]`: 港股盘中, 09:30–12:00 and 13:00–16:00 Asia/Hong_Kong,
`supportsDst: false`. -/
def hkRegularDef : TradingSessionDefinition :=
  { name := "港股盘中"
    market := .hk
    timeZone := "Asia/Hong_Kong"
    windows := [{ start := "09:30", «end» := "12:00" },
                { start := "13:00", «end» := "16:00" }]
    supportsDst := some false
    description := some "香港交易所的常规日间交易，午间有一小时休市。" }

/-- Source `SESSION_DEFINITIONS[5]`: 港股夜盘, 17:15–03:00 Asia/Hong_Kong (wraps midnight),
`supportsDst: false`. -/
def hkEveningDef : TradingSessionDefinition :=
  { name := "港股夜盘"
    market := .hk
    timeZone := "Asia/Hong_Kong"
    windows := [{ start := "17:15", «end» := "03:00" }]
    supportsDst := some false
    description := some "港股衍生品及部分品种的夜间交易时段。" }

/-- Source `const SESSION_DEFINITIONS: TradingSessionDefinition[]` — the whole catalog,
in source order. -/
def SESSION_DEFINITIONS : List TradingSessionDefinition :=
  [usPreMarketDef, usRegularDef, usAfterHoursDef, usOvernightDef,
   hkRegularDef, hkEveningDef]

/-- Source `const US_SESSION_ORDER`. -/
def US_SESSION_ORDER : List String := ["美股盘前", "美股盘中", "美股盘后", "美股夜盘"]

/-- Source `const HK_SESSION_ORDER`. -/
def HK_SESSION_ORDER : List String := ["港股盘中", "港股夜盘"]

/-- An absolute instant (the JS `Date` argument, epoch milliseconds). -/
abbrev Instant := Int

/-- Environment capturing the JS `Date` / `Intl` platform primitives the engine
calls.  Each field models one external observation:
* `minutesInZone` — the hour/minute extraction of `getMinutesInTimeZone`
  (an `Intl.DateTimeFormat(...).formatToParts` projection of the instant into
  the zone, already combined as `hour * 60 + minute`);
* `shortTzName` — the `timeZoneName: "short"` part used by `computeDstLabel`
  (`none` when the formatter yields no such part);
* `offsetMinutes` — the value of `getTimeZoneOffsetMinutes(date, timeZone)`,
  i.e. `(date - localizedReparse(date)) / 60000`;
* `utcYear` — `date.getUTCFullYear()`;
* `janFirst` / `julFirst` — `new Date(Date.UTC(year, 0, 1))` and
  `new Date(Date.UTC(year, 6, 1))`;
* `formatLocal` — the `formatLocalTime` formatter output. -/
structure TzEnv where
  minutesInZone : Instant → String → Nat
  shortTzName : Instant → String → Option String
  offsetMinutes : Instant → String → Int
  utcYear : Instant → Int
  janFirst : Int → Instant
  julFirst : Int → Instant
  formatLocal : Instant → String → String

/-- Source `timeStringToMinutes`: `"HH:MM"` → minute-of-day. -/
def timeStringToMinutes (value : String) : Nat :=
  let parts := (splitOnChar ':' value.toList).map
    (fun v => (parseIntBase10 (String.mk v)).getD 0)
  parts.getD 0 0 * 60 + parts.getD 1 0

/-- Source `getMinutesInTimeZone(date, timeZone)` — the civil minute-of-day of the
instant in the zone, supplied by the environment. -/
def getMinutesInTimeZone (env : TzEnv) (date : Instant) (timeZone : String) : Nat :=
  env.minutesInZone date timeZone

/-- The window-membership predicate inlined in `isWithinWindow`'s
`windows.some(...)` callback: non-wrapping windows are half-open
`[start, end)`; a window with `start > end` wraps midnight. -/
def windowContainsMinutes (currentMinutes : Nat) (window : TradingWindow) : Bool :=
  let start := timeStringToMinutes window.start
  let «end» := timeStringToMinutes window.«end»
  if start ≤ «end» then
    decide (currentMinutes ≥ start) && decide (currentMinutes < «end»)
  else
    decide (currentMinutes ≥ start) || decide (currentMinutes < «end»)

/-- Source `isWithinWindow(date, definition)`: some window of the definition contains
the instant's minute-of-day in the definition's time zone. -/
def isWithinWindow (env : TzEnv) (date : Instant)
    (definition : TradingSessionDefinition) : Bool :=
  let currentMinutes := getMinutesInTimeZone env date definition.timeZone
  definition.windows.any (fun window => windowContainsMinutes currentMinutes window)

/-- Source `export interface SessionSnapshot`. -/
structure SessionSnapshot where
  current : Option TradingSessionDefinition
  localTime : String
  dstLabel : String
deriving DecidableEq

/-- Source `getTimeZoneOffsetMinutes(date, timeZone)` — supplied by the environment. -/
def getTimeZoneOffsetMinutes (env : TzEnv) (date : Instant) (timeZone : String) : Int :=
  env.offsetMinutes date timeZone

/-- Source `computeDstLabel(definition, date)`: fixed label when the definition is
absent or declares `supportsDst: false`; otherwise a name-based determination
from the short zone abbreviation (an early `return` in the source, modelled as
`nameVerdict`), falling through to the January/July offset-sampling fallback. -/
def computeDstLabel (env : TzEnv) (definition : Option TradingSessionDefinition)
    (date : Instant) : String :=
  match definition with
  | none => "未知时制"
  | some definition =>
    if definition.supportsDst == some false then
      "标准时间（无夏令时）"
    else
      let tzNamePart := env.shortTzName date definition.timeZone
      let nameVerdict : Option String :=
        match tzNamePart with
        | none => none
        | some name =>
          if name == "" then none
          else
            let upper := stringToUpper name
            if strIncludes upper "DT" then some "夏令时 (DST)"
            else if strIncludes upper "ST" || strIncludes upper "STANDARD" then
              some "冬令时 (标准时间)"
            else none
      match nameVerdict with
      | some label => label
      | none =>
        let year := env.utcYear date
        let january := env.janFirst year
        let july := env.julFirst year
        let currentOffset := getTimeZoneOffsetMinutes env date definition.timeZone
        let januaryOffset := getTimeZoneOffsetMinutes env january definition.timeZone
        let julyOffset := getTimeZoneOffsetMinutes env july definition.timeZone
        let standardOffset := max januaryOffset julyOffset
        if currentOffset < standardOffset then "夏令时 (DST)" else "冬令时 (标准时间)"

/-- Source `formatLocalTime(date, timeZone)` — supplied by the environment. -/
def formatLocalTime (env : TzEnv) (date : Instant) (timeZone : String) : String :=
  env.formatLocal date timeZone

/-- Source `getUsSessionSnapshot(date)`: resolve `US_SESSION_ORDER` against the
catalog, return the first active definition (or `none`), the formatted New
York local time and the DST label of the first definition. -/
def getUsSessionSnapshot (env : TzEnv) (date : Instant) : SessionSnapshot :=
  let definitions := (US_SESSION_ORDER.map (fun name =>
      SESSION_DEFINITIONS.find? (fun definition => definition.name == name))).filterMap id
  let current := definitions.find? (fun definition => isWithinWindow env date definition)
  let localTime := formatLocalTime env date "America/New_York"
  let dstLabel := computeDstLabel env definitions.head? date
  { current := current, localTime := localTime, dstLabel := dstLabel }

/-- Source `getHkSessionSnapshot(date)` — the Hong Kong counterpart. -/
def getHkSessionSnapshot (env : TzEnv) (date : Instant) : SessionSnapshot :=
  let definitions := (HK_SESSION_ORDER.map (fun name =>
      SESSION_DEFINITIONS.find? (fun definition => definition.name == name))).filterMap id
  let current := definitions.find? (fun definition => isWithinWindow env date definition)
  let localTime := formatLocalTime env date "Asia/Hong_Kong"
  let dstLabel := computeDstLabel env definitions.head? date
  { current := current, localTime := localTime, dstLabel := dstLabel }

/-- Source `listSessionsByMarket(market)`. -/
def listSessionsByMarket (market : Market) : List TradingSessionDefinition :=
  SESSION_DEFINITIONS.filter (fun definition => definition.market == market)

/-! ### Statement-side helpers (test environments and abbreviations) -/

/-- The US definition list exactly as `getUsSessionSnapshot` resolves it. -/
def usSessionList : List TradingSessionDefinition :=
  (US_SESSION_ORDER.map (fun name =>
    SESSION_DEFINITIONS.find? (fun definition => definition.name == name))).filterMap id

/-- The HK definition list exactly as `getHkSessionSnapshot` resolves it. -/
def hkSessionList : List TradingSessionDefinition :=
  (HK_SESSION_ORDER.map (fun name =>
    SESSION_DEFINITIONS.find? (fun definition => definition.name == name))).filterMap id

/-- A concrete environment whose civil clock shows minute-of-day `m` in every
zone; the remaining platform observations are inert constants. -/
def constEnv (m : Nat) : TzEnv where
  minutesInZone := fun _ _ => m
  shortTzName := fun _ _ => none
  offsetMinutes := fun _ _ => 0
  utcYear := fun _ => 2024
  janFirst := fun _ => 0
  julFirst := fun _ => 1000
  formatLocal := fun _ _ => ""

/-- A concrete New-York-like environment for the DST fallback: no usable zone
abbreviation, UTC-minus-local offset 300 minutes (standard) before instant
100 and 240 minutes (daylight) from instant 100 on; January 1 falls at
instant 0 and July 1 at instant 1000. -/
def nyEnv : TzEnv where
  minutesInZone := fun _ _ => 0
  shortTzName := fun _ _ => none
  offsetMinutes := fun date _ => if date < 100 then 300 else 240
  utcYear := fun _ => 2024
  janFirst := fun _ => 0
  julFirst := fun _ => 1000
  formatLocal := fun _ _ => ""

/-- The single window of the US Overnight session, named for use in statements. -/
def overnightWindow : TradingWindow := { start := "20:00", «end» := "04:00" }

/-- The single window of the US Regular session, named for use in statements. -/
def regularWindow : TradingWindow := { start := "09:30", «end» := "16:00" }

/-! ### Shared lemmas -/

lemma usSessionList_eq :
    usSessionList = [usPreMarketDef, usRegularDef, usAfterHoursDef, usOvernightDef] := rfl

lemma hkSessionList_eq : hkSessionList = [hkRegularDef, hkEveningDef] := rfl

lemma us_current_eq (env : TzEnv) (date : Instant) :
    (getUsSessionSnapshot env date).current = usSessionList.find? (isWithinWindow env date) :=
  rfl

lemma hk_current_eq (env : TzEnv) (date : Instant) :
    (getHkSessionSnapshot env date).current = hkSessionList.find? (isWithinWindow env date) :=
  rfl

lemma windowContains_of_le (m : Nat) (w : TradingWindow)
    (h : timeStringToMinutes w.start ≤ timeStringToMinutes w.«end») :
    windowContainsMinutes m w = true ↔
      timeStringToMinutes w.start ≤ m ∧ m < timeStringToMinutes w.«end» := by
  simp only [windowContainsMinutes]
  rw [if_pos h]
  simp only [Bool.and_eq_true, decide_eq_true_eq]

lemma windowContains_of_wrap (m : Nat) (w : TradingWindow)
    (h : timeStringToMinutes w.«end» < timeStringToMinutes w.start) :
    windowContainsMinutes m w = true ↔
      timeStringToMinutes w.start ≤ m ∨ m < timeStringToMinutes w.«end» := by
  simp only [windowContainsMinutes]
  rw [if_neg (by omega)]
  simp only [Bool.or_eq_true, decide_eq_true_eq]

/-! ### C1 and C2: window containment -/

/-- C1: a midnight-wrapping window (one whose start minute is strictly greater
than its end minute) contains an instant iff the instant's civil minute-of-day
`m` in the window's zone satisfies `m ≥ start ∨ m < end`; for the US Overnight
window 20:00–04:00, minutes 23:59 (1439) and 00:01 (1) are contained while
04:00 (240) and 19:59 (1199) are not, and an instant whose New York civil time
is 21:00 (minute 1260) classifies as the Overnight session. -/
theorem wrapping_window_contains_iff :
    (∀ (env : TzEnv) (date : Instant) (tz : String) (w : TradingWindow),
      timeStringToMinutes w.«end» < timeStringToMinutes w.start →
      (windowContainsMinutes (getMinutesInTimeZone env date tz) w = true ↔
        (timeStringToMinutes w.start ≤ getMinutesInTimeZone env date tz ∨
         getMinutesInTimeZone env date tz < timeStringToMinutes w.«end»))) ∧
    usOvernightDef.windows = [overnightWindow] ∧
    windowContainsMinutes 1439 overnightWindow = true ∧
    windowContainsMinutes 1 overnightWindow = true ∧
    windowContainsMinutes 240 overnightWindow = false ∧
    windowContainsMinutes 1199 overnightWindow = false ∧
    (getUsSessionSnapshot (constEnv 1260) 0).current = some usOvernightDef := by
  refine ⟨?_, rfl, by decide, by decide, by decide, by decide, by decide⟩
  intro env date tz w hwrap
  exact windowContains_of_wrap _ w hwrap

/-- Witness for C1: the wrapping characterization applied to the Overnight
window 20:00–04:00 at minute 23:59. -/
theorem wrapping_window_contains_iff_witness :
    timeStringToMinutes overnightWindow.«end» < timeStringToMinutes overnightWindow.start ∧
    (windowContainsMinutes (getMinutesInTimeZone (constEnv 1439) 0 "America/New_York")
        overnightWindow = true ↔
      (timeStringToMinutes overnightWindow.start ≤
          getMinutesInTimeZone (constEnv 1439) 0 "America/New_York" ∨
        getMinutesInTimeZone (constEnv 1439) 0 "America/New_York" <
          timeStringToMinutes overnightWindow.«end»)) :=
  ⟨by decide,
   wrapping_window_contains_iff.1 (constEnv 1439) 0 "America/New_York"
     overnightWindow (by decide)⟩

/-- C2: a non-wrapping window (start ≤ end) contains an instant iff the civil
minute-of-day `m` satisfies `start ≤ m < end` (half-open); the minute exactly
at `end` is not contained, and at New York minute 960 (16:00, the exact end of
the Regular window) classification selects After-hours, not Regular. -/
theorem nonwrapping_window_contains_iff :
    (∀ (env : TzEnv) (date : Instant) (tz : String) (w : TradingWindow),
      timeStringToMinutes w.start ≤ timeStringToMinutes w.«end» →
      (windowContainsMinutes (getMinutesInTimeZone env date tz) w = true ↔
        (timeStringToMinutes w.start ≤ getMinutesInTimeZone env date tz ∧
         getMinutesInTimeZone env date tz < timeStringToMinutes w.«end»))) ∧
    usRegularDef.windows = [regularWindow] ∧
    windowContainsMinutes 960 regularWindow = false ∧
    (getUsSessionSnapshot (constEnv 960) 0).current ≠ some usRegularDef ∧
    (getUsSessionSnapshot (constEnv 960) 0).current = some usAfterHoursDef := by
  refine ⟨?_, rfl, by decide, by decide, by decide⟩
  intro env date tz w hle
  exact windowContains_of_le _ w hle

/-- Witness for C2: the half-open characterization applied to the Regular
window 09:30–16:00 at minute 960 (= 16:00 exactly). -/
theorem nonwrapping_window_contains_iff_witness :
    timeStringToMinutes regularWindow.start ≤ timeStringToMinutes regularWindow.«end» ∧
    (windowContainsMinutes (getMinutesInTimeZone (constEnv 960) 0 "America/New_York")
        regularWindow = true ↔
      (timeStringToMinutes regularWindow.start ≤
          getMinutesInTimeZone (constEnv 960) 0 "America/New_York" ∧
        getMinutesInTimeZone (constEnv 960) 0 "America/New_York" <
          timeStringToMinutes regularWindow.«end»)) :=
  ⟨by decide,
   nonwrapping_window_contains_iff.1 (constEnv 960) 0 "America/New_York"
     regularWindow (by decide)⟩

/-! ### C3: first-match selection in display order -/

lemma find?_index_le {α : Type} (p : α → Bool) (l : List α) (i : Nat) (hi : i < l.length)
    (hp : p (l.get ⟨i, hi⟩) = true) :
    ∃ k, ∃ hk : k < l.length, k ≤ i ∧ l.find? p = some (l.get ⟨k, hk⟩) := by
  induction l generalizing i with
  | nil => exact absurd hi (Nat.not_lt_zero i)
  | cons a t ih =>
    cases hpa : p a with
    | true =>
      exact ⟨0, Nat.succ_pos t.length, Nat.zero_le i, by simp [List.find?_cons_of_pos _ hpa]⟩
    | false =>
      cases i with
      | zero => rw [show (a :: t).get ⟨0, hi⟩ = a from rfl] at hp; rw [hp] at hpa; cases hpa
      | succ n =>
        have hn : n < t.length := by simpa using hi
        obtain ⟨k, hk, hki, hfind⟩ := ih n hn (by simpa using hp)
        refine ⟨k + 1, Nat.succ_lt_succ hk, Nat.succ_le_succ hki, ?_⟩
        rw [List.find?_cons_of_neg _ (by simp [hpa]), hfind]
        rfl

/-- C3: session selection resolves the market's definitions in canonical
display order (US: Pre-market, Regular, After-hours, Overnight; HK: Regular,
Evening) and returns the first active one; consequently, over any definition
list without duplicates, an active earlier-listed definition prevents every
later-listed definition from being returned. -/
theorem session_selection_first_match :
    usSessionList = [usPreMarketDef, usRegularDef, usAfterHoursDef, usOvernightDef] ∧
    hkSessionList = [hkRegularDef, hkEveningDef] ∧
    (∀ (env : TzEnv) (date : Instant),
      (getUsSessionSnapshot env date).current =
        usSessionList.find? (isWithinWindow env date)) ∧
    (∀ (env : TzEnv) (date : Instant),
      (getHkSessionSnapshot env date).current =
        hkSessionList.find? (isWithinWindow env date)) ∧
    (∀ (env : TzEnv) (date : Instant) (defs : List TradingSessionDefinition)
        (i j : Nat) (hi : i < defs.length) (hj : j < defs.length),
      defs.Nodup → i < j → isWithinWindow env date (defs.get ⟨i, hi⟩) = true →
      defs.find? (isWithinWindow env date) ≠ some (defs.get ⟨j, hj⟩)) := by
  refine ⟨rfl, rfl, fun _ _ => rfl, fun _ _ => rfl, ?_⟩
  intro env date defs i j hi hj hnd hij hact hfound
  obtain ⟨k, hk, hki, hfind⟩ := find?_index_le (isWithinWindow env date) defs i hi hact
  rw [hfind] at hfound
  have hkj : k = j := by
    have h2 := (hnd.get_inj_iff (i := ⟨k, hk⟩) (j := ⟨j, hj⟩)).mp (Option.some_injective _ hfound)
    exact congrArg Fin.val h2
  omega

/-- Witness for C3: two overlapping single-window sessions in a two-element
list; the first is active at minute 180, so the second is never returned. -/
theorem session_selection_first_match_witness :
    ([{ name := "A", market := Market.us, timeZone := "Z",
        windows := [{ start := "01:00", «end» := "05:00" }] },
      { name := "B", market := Market.us, timeZone := "Z",
        windows := [{ start := "02:00", «end» := "06:00" }] }] :
        List TradingSessionDefinition).find?
      (isWithinWindow (constEnv 180) 0) ≠
    some (([{ name := "A", market := Market.us, timeZone := "Z",
              windows := [{ start := "01:00", «end» := "05:00" }] },
            { name := "B", market := Market.us, timeZone := "Z",
              windows := [{ start := "02:00", «end» := "06:00" }] }] :
              List TradingSessionDefinition).get ⟨1, by decide⟩) :=
  session_selection_first_match.2.2.2.2 (constEnv 180) 0 _ 0 1
    (by decide) (by decide) (by decide) (by decide) (by decide)

/-! ### C5: HK snapshots always carry the fixed standard-time label -/

/-- C5: for every instant the HK snapshot's DST label is the fixed
standard-time label "标准时间（无夏令时）": both HK definitions declare
`supportsDst: false`, and the label is computed from the first resolved
definition (港股盘中), so the name-based and offset-based paths are never
reached. -/
theorem hk_dst_label_fixed :
    (∀ (env : TzEnv) (date : Instant),
      (getHkSessionSnapshot env date).dstLabel = "标准时间（无夏令时）") ∧
    hkRegularDef.supportsDst = some false ∧
    hkEveningDef.supportsDst = some false ∧
    hkSessionList.head? = some hkRegularDef :=
  ⟨fun _ _ => rfl, rfl, rfl, rfl⟩

/-! ### C7: the registry catalog reproduces the canonical configuration -/

/-- C7: `listSessionsByMarket` returns each market's sessions in canonical
display order with exactly the canonical windows, time zones and DST flags:
US Pre-market 04:00–09:30, Regular 09:30–16:00, After-hours 16:00–20:00,
Overnight 20:00–04:00 in America/New_York; HK Regular 09:30–12:00 and
13:00–16:00 then Evening 17:15–03:00 in Asia/Hong_Kong, both non-DST. -/
theorem catalog_matches_canonical_config :
    listSessionsByMarket Market.us =
      [usPreMarketDef, usRegularDef, usAfterHoursDef, usOvernightDef] ∧
    listSessionsByMarket Market.hk = [hkRegularDef, hkEveningDef] ∧
    listSessionsByMarket Market.us = usSessionList ∧
    listSessionsByMarket Market.hk = hkSessionList ∧
    (listSessionsByMarket Market.us).map (fun d =>
        (d.name, d.timeZone, d.supportsDst,
         d.windows.map (fun w => (timeStringToMinutes w.start, timeStringToMinutes w.«end»)))) =
      [("美股盘前", "America/New_York", none, [(240, 570)]),
       ("美股盘中", "America/New_York", none, [(570, 960)]),
       ("美股盘后", "America/New_York", none, [(960, 1200)]),
       ("美股夜盘", "America/New_York", none, [(1200, 240)])] ∧
    (listSessionsByMarket Market.hk).map (fun d =>
        (d.name, d.timeZone, d.supportsDst,
         d.windows.map (fun w => (timeStringToMinutes w.start, timeStringToMinutes w.«end»)))) =
      [("港股盘中", "Asia/Hong_Kong", some false, [(570, 720), (780, 960)]),
       ("港股夜盘", "Asia/Hong_Kong", some false, [(1035, 180)])] :=
  ⟨rfl, rfl, rfl, rfl, by decide, by decide⟩

/-! ### C8: no active session is a normal "closed" result -/

/-- C8: when no window of a market's sessions contains the instant's
minute-of-day, the snapshot's `current` field is `none` while the local-time
string and DST label are still produced; at HK civil minute 750 (12:30, the
lunch gap) the HK snapshot has no active session and the standard-time
label. -/
theorem closed_market_is_normal_result :
    (∀ (env : TzEnv) (date : Instant),
      (∀ d ∈ usSessionList, isWithinWindow env date d = false) →
      (getUsSessionSnapshot env date).current = none ∧
      (getUsSessionSnapshot env date).localTime = formatLocalTime env date "America/New_York" ∧
      (getUsSessionSnapshot env date).dstLabel =
        computeDstLabel env (some usPreMarketDef) date) ∧
    (∀ (env : TzEnv) (date : Instant),
      (∀ d ∈ hkSessionList, isWithinWindow env date d = false) →
      (getHkSessionSnapshot env date).current = none ∧
      (getHkSessionSnapshot env date).localTime = formatLocalTime env date "Asia/Hong_Kong" ∧
      (getHkSessionSnapshot env date).dstLabel = "标准时间（无夏令时）") ∧
    (∀ d ∈ hkSessionList, isWithinWindow (constEnv 750) 0 d = false) ∧
    (getHkSessionSnapshot (constEnv 750) 0).current = none ∧
    (getHkSessionSnapshot (constEnv 750) 0).dstLabel = "标准时间（无夏令时）" := by
  refine ⟨?_, ?_, by decide, by decide, rfl⟩
  · intro env date h
    refine ⟨?_, rfl, rfl⟩
    rw [us_current_eq]
    exact List.find?_eq_none.mpr (fun d hd => by simp [h d hd])
  · intro env date h
    refine ⟨?_, rfl, rfl⟩
    rw [hk_current_eq]
    exact List.find?_eq_none.mpr (fun d hd => by simp [h d hd])

/-- Witness for C8: the HK lunch-gap instant (civil minute 750) discharges the
"no window active" hypothesis. -/
theorem closed_market_is_normal_result_witness :
    (getHkSessionSnapshot (constEnv 750) 0).current = none ∧
    (getHkSessionSnapshot (constEnv 750) 0).localTime =
      formatLocalTime (constEnv 750) 0 "Asia/Hong_Kong" ∧
    (getHkSessionSnapshot (constEnv 750) 0).dstLabel = "标准时间（无夏令时）" :=
  closed_market_is_normal_result.2.1 (constEnv 750) 0 (by decide)

/-! ### Per-window and per-session activity lemmas (shared) -/

lemma wc_preWindow (m : Nat) :
    windowContainsMinutes m { start := "04:00", «end» := "09:30" } =
      (decide (240 ≤ m) && decide (m < 570)) := rfl

lemma wc_regularWindow (m : Nat) :
    windowContainsMinutes m regularWindow = (decide (570 ≤ m) && decide (m < 960)) := rfl

lemma wc_afterWindow (m : Nat) :
    windowContainsMinutes m { start := "16:00", «end» := "20:00" } =
      (decide (960 ≤ m) && decide (m < 1200)) := rfl

lemma wc_overnightWindow (m : Nat) :
    windowContainsMinutes m overnightWindow = (decide (1200 ≤ m) || decide (m < 240)) := rfl

lemma wc_hkMorningWindow (m : Nat) :
    windowContainsMinutes m { start := "09:30", «end» := "12:00" } =
      (decide (570 ≤ m) && decide (m < 720)) := rfl

lemma wc_hkAfternoonWindow (m : Nat) :
    windowContainsMinutes m { start := "13:00", «end» := "16:00" } =
      (decide (780 ≤ m) && decide (m < 960)) := rfl

lemma wc_hkEveningWindow (m : Nat) :
    windowContainsMinutes m { start := "17:15", «end» := "03:00" } =
      (decide (1035 ≤ m) || decide (m < 180)) := rfl

lemma active_usPre (env : TzEnv) (date : Instant) :
    isWithinWindow env date usPreMarketDef =
      (decide (240 ≤ env.minutesInZone date "America/New_York") &&
       decide (env.minutesInZone date "America/New_York" < 570)) := by
  show (windowContainsMinutes (env.minutesInZone date "America/New_York")
      { start := "04:00", «end» := "09:30" } || false) = _
  rw [wc_preWindow, Bool.or_false]

lemma active_usRegular (env : TzEnv) (date : Instant) :
    isWithinWindow env date usRegularDef =
      (decide (570 ≤ env.minutesInZone date "America/New_York") &&
       decide (env.minutesInZone date "America/New_York" < 960)) := by
  show (windowContainsMinutes (env.minutesInZone date "America/New_York")
      regularWindow || false) = _
  rw [wc_regularWindow, Bool.or_false]

lemma active_usAfter (env : TzEnv) (date : Instant) :
    isWithinWindow env date usAfterHoursDef =
      (decide (960 ≤ env.minutesInZone date "America/New_York") &&
       decide (env.minutesInZone date "America/New_York" < 1200)) := by
  show (windowContainsMinutes (env.minutesInZone date "America/New_York")
      { start := "16:00", «end» := "20:00" } || false) = _
  rw [wc_afterWindow, Bool.or_false]

lemma active_usOvernight (env : TzEnv) (date : Instant) :
    isWithinWindow env date usOvernightDef =
      (decide (1200 ≤ env.minutesInZone date "America/New_York") ||
       decide (env.minutesInZone date "America/New_York" < 240)) := by
  show (windowContainsMinutes (env.minutesInZone date "America/New_York")
      overnightWindow || false) = _
  rw [wc_overnightWindow, Bool.or_false]

lemma active_hkRegular (env : TzEnv) (date : Instant) :
    isWithinWindow env date hkRegularDef =
      ((decide (570 ≤ env.minutesInZone date "Asia/Hong_Kong") &&
        decide (env.minutesInZone date "Asia/Hong_Kong" < 720)) ||
       (decide (780 ≤ env.minutesInZone date "Asia/Hong_Kong") &&
        decide (env.minutesInZone date "Asia/Hong_Kong" < 960))) := by
  show (windowContainsMinutes (env.minutesInZone date "Asia/Hong_Kong")
        { start := "09:30", «end» := "12:00" } ||
       (windowContainsMinutes (env.minutesInZone date "Asia/Hong_Kong")
        { start := "13:00", «end» := "16:00" } || false)) = _
  rw [wc_hkMorningWindow, wc_hkAfternoonWindow, Bool.or_false]

lemma active_hkEvening (env : TzEnv) (date : Instant) :
    isWithinWindow env date hkEveningDef =
      (decide (1035 ≤ env.minutesInZone date "Asia/Hong_Kong") ||
       decide (env.minutesInZone date "Asia/Hong_Kong" < 180)) := by
  show (windowContainsMinutes (env.minutesInZone date "Asia/Hong_Kong")
      { start := "17:15", «end» := "03:00" } || false) = _
  rw [wc_hkEveningWindow, Bool.or_false]

lemma find?_eq_of_unique {α : Type} (p : α → Bool) (l : List α) (d : α) (hd : d ∈ l)
    (hp : p d = true) (huniq : ∀ d' ∈ l, p d' = true → d' = d) :
    l.find? p = some d := by
  induction l with
  | nil => cases hd
  | cons a t ih =>
    by_cases hpa : p a = true
    · rw [List.find?_cons_of_pos _ hpa]
      exact congrArg some (huniq a (List.mem_cons_self a t) hpa)
    · rw [List.find?_cons_of_neg _ (by simpa using hpa)]
      have hd' : d ∈ t := by
        rcases List.mem_cons.mp hd with h | h
        · subst h; exact absurd hp hpa
        · exact h
      exact ih hd' (fun d' h' hp' => huniq d' (List.mem_cons_of_mem a h') hp')

lemma us_active_unique (env : TzEnv) (date : Instant) (d d' : TradingSessionDefinition)
    (hd : d ∈ usSessionList) (hd' : d' ∈ usSessionList)
    (h1 : isWithinWindow env date d = true) (h2 : isWithinWindow env date d' = true) :
    d = d' := by
  rw [usSessionList_eq] at hd hd'
  fin_cases hd <;> fin_cases hd' <;>
    simp_all [active_usPre, active_usRegular, active_usAfter, active_usOvernight] <;>
    omega

lemma hk_active_unique (env : TzEnv) (date : Instant) (d d' : TradingSessionDefinition)
    (hd : d ∈ hkSessionList) (hd' : d' ∈ hkSessionList)
    (h1 : isWithinWindow env date d = true) (h2 : isWithinWindow env date d' = true) :
    d = d' := by
  rw [hkSessionList_eq] at hd hd'
  fin_cases hd <;> fin_cases hd' <;>
    simp_all [active_hkRegular, active_hkEvening] <;>
    omega

/-! ### C9: the shipped windows of each market are pairwise disjoint -/

/-- C9: under the shipped catalog, for every minute-of-day at most one window
across all of a market's sessions contains it, so any active session is the
one first-match selection returns. -/
theorem market_windows_pairwise_disjoint :
    (∀ m : Nat, (((listSessionsByMarket Market.us).flatMap (fun d => d.windows)).countP
        (windowContainsMinutes m)) ≤ 1) ∧
    (∀ m : Nat, (((listSessionsByMarket Market.hk).flatMap (fun d => d.windows)).countP
        (windowContainsMinutes m)) ≤ 1) ∧
    (∀ (env : TzEnv) (date : Instant) (d : TradingSessionDefinition),
      d ∈ usSessionList → isWithinWindow env date d = true →
      (getUsSessionSnapshot env date).current = some d) ∧
    (∀ (env : TzEnv) (date : Instant) (d : TradingSessionDefinition),
      d ∈ hkSessionList → isWithinWindow env date d = true →
      (getHkSessionSnapshot env date).current = some d) := by
  refine ⟨?_, ?_, ?_, ?_⟩
  · intro m
    rw [show (listSessionsByMarket Market.us).flatMap (fun d => d.windows) =
        [{ start := "04:00", «end» := "09:30" }, regularWindow,
         { start := "16:00", «end» := "20:00" }, overnightWindow] from rfl]
    simp only [List.countP_cons, List.countP_nil, wc_preWindow, wc_regularWindow,
      wc_afterWindow, wc_overnightWindow, Bool.and_eq_true, Bool.or_eq_true,
      decide_eq_true_eq]
    split_ifs <;> omega
  · intro m
    rw [show (listSessionsByMarket Market.hk).flatMap (fun d => d.windows) =
        [{ start := "09:30", «end» := "12:00" }, { start := "13:00", «end» := "16:00" },
         { start := "17:15", «end» := "03:00" }] from rfl]
    simp only [List.countP_cons, List.countP_nil, wc_hkMorningWindow, wc_hkAfternoonWindow,
      wc_hkEveningWindow, Bool.and_eq_true, Bool.or_eq_true, decide_eq_true_eq]
    split_ifs <;> omega
  · intro env date d hmem hact
    rw [us_current_eq]
    exact find?_eq_of_unique _ _ _ hmem hact
      (fun d' h' hp' => us_active_unique env date d' d h' hmem hp' hact)
  · intro env date d hmem hact
    rw [hk_current_eq]
    exact find?_eq_of_unique _ _ _ hmem hact
      (fun d' h' hp' => hk_active_unique env date d' d h' hmem hp' hact)

/-- Witness for C9: the Overnight session is active at New York minute 1260
and is exactly the session the US snapshot returns. -/
theorem market_windows_pairwise_disjoint_witness :
    usOvernightDef ∈ usSessionList ∧
    isWithinWindow (constEnv 1260) 0 usOvernightDef = true ∧
    (getUsSessionSnapshot (constEnv 1260) 0).current = some usOvernightDef :=
  ⟨by decide, by decide,
   market_windows_pairwise_disjoint.2.2.1 (constEnv 1260) 0 usOvernightDef
     (by decide) (by decide)⟩

/-! ### C10: the US windows cover the whole day -/

/-- C10: the four configured US windows jointly contain every minute-of-day,
so for every environment and instant the US snapshot reports a session
(`current` is never `none`). -/
theorem us_market_never_closed :
    (∀ m : Nat, (((listSessionsByMarket Market.us).flatMap (fun d => d.windows)).any
        (windowContainsMinutes m)) = true) ∧
    (∀ (env : TzEnv) (date : Instant),
      ((getUsSessionSnapshot env date).current).isSome = true) := by
  constructor
  · intro m
    rw [show (listSessionsByMarket Market.us).flatMap (fun d => d.windows) =
        [{ start := "04:00", «end» := "09:30" }, regularWindow,
         { start := "16:00", «end» := "20:00" }, overnightWindow] from rfl]
    simp only [List.any_cons, List.any_nil, wc_preWindow, wc_regularWindow,
      wc_afterWindow, wc_overnightWindow, Bool.or_eq_true, Bool.and_eq_true,
      decide_eq_true_eq, Bool.or_false]
    omega
  · intro env date
    rw [us_current_eq]
    have hex : ∃ d ∈ usSessionList, isWithinWindow env date d = true := by
      rcases Nat.lt_or_ge (env.minutesInZone date "America/New_York") 240 with h | h
      · refine ⟨usOvernightDef, by rw [usSessionList_eq]; simp, ?_⟩
        rw [active_usOvernight]
        simp only [Bool.or_eq_true, decide_eq_true_eq]
        omega
      rcases Nat.lt_or_ge (env.minutesInZone date "America/New_York") 570 with h2 | h2
      · refine ⟨usPreMarketDef, by rw [usSessionList_eq]; simp, ?_⟩
        rw [active_usPre]
        simp only [Bool.and_eq_true, decide_eq_true_eq]
        omega
      rcases Nat.lt_or_ge (env.minutesInZone date "America/New_York") 960 with h3 | h3
      · refine ⟨usRegularDef, by rw [usSessionList_eq]; simp, ?_⟩
        rw [active_usRegular]
        simp only [Bool.and_eq_true, decide_eq_true_eq]
        omega
      rcases Nat.lt_or_ge (env.minutesInZone date "America/New_York") 1200 with h4 | h4
      · refine ⟨usAfterHoursDef, by rw [usSessionList_eq]; simp, ?_⟩
        rw [active_usAfter]
        simp only [Bool.and_eq_true, decide_eq_true_eq]
        omega
      · refine ⟨usOvernightDef, by rw [usSessionList_eq]; simp, ?_⟩
        rw [active_usOvernight]
        simp only [Bool.or_eq_true, decide_eq_true_eq]
        omega
    obtain ⟨d, hd, hact⟩ := hex
    cases hfind : usSessionList.find? (isWithinWindow env date) with
    | some d' => rfl
    | none => exact absurd hact (List.find?_eq_none.mp hfind d hd)

/-! ### C4: DST determination by offset sampling -/

/-- The name-based DST determination of `computeDstLabel` is inconclusive: the
platform produced no short zone name, an empty one, or one whose upper-casing
contains none of the recognized daylight/standard designators. -/
def nameCheckInconclusive (env : TzEnv) (date : Instant) (tz : String) : Prop :=
  match env.shortTzName date tz with
  | none => True
  | some name =>
      name = "" ∨
      (strIncludes (stringToUpper name) "DT" = false ∧
       strIncludes (stringToUpper name) "ST" = false ∧
       strIncludes (stringToUpper name) "STANDARD" = false)

/-- The standard-time baseline of the offset fallback: the larger of the
zone's offsets sampled at January 1 and July 1 of the instant's UTC year. -/
def standardOffsetBaseline (env : TzEnv) (date : Instant) (tz : String) : Int :=
  max (getTimeZoneOffsetMinutes env (env.janFirst (env.utcYear date)) tz)
      (getTimeZoneOffsetMinutes env (env.julFirst (env.utcYear date)) tz)

lemma computeDstLabel_fallback (env : TzEnv) (date : Instant)
    (d : TradingSessionDefinition) (hdst : d.supportsDst ≠ some false)
    (hname : nameCheckInconclusive env date d.timeZone) :
    computeDstLabel env (some d) date =
      (if getTimeZoneOffsetMinutes env date d.timeZone <
          standardOffsetBaseline env date d.timeZone
       then "夏令时 (DST)" else "冬令时 (标准时间)") := by
  have hbeq : (d.supportsDst == some false) = false := by
    cases h : d.supportsDst with
    | none => rfl
    | some b => cases b with
      | false => exact absurd h hdst
      | true => rfl
  unfold nameCheckInconclusive at hname
  simp only [computeDstLabel, hbeq, Bool.false_eq_true, if_false]
  cases htz : env.shortTzName date d.timeZone with
  | none => rfl
  | some name =>
    rw [htz] at hname
    rcases hname with hname | ⟨h1, h2, h3⟩
    · subst hname
      rfl
    · cases hn : (name == "") with
      | true =>
        simp only [hn]
        rfl
      | false =>
        simp only [hn, h1, h2, h3]
        rfl

/-- C4: when the session does not declare `supportsDst: false` and the
zone-abbreviation check is inconclusive, the DST label comes from the offset
fallback — daylight iff the instant's offset is strictly below the larger
(`Math.max`) of the offsets sampled at January 1 and July 1 of the instant's
UTC year; consequently two instants of the same year, one at the baseline
offset and one strictly below it, receive different labels, and in the
New-York-like environment `nyEnv` the label flips across the transition. -/
theorem dst_offset_fallback :
    (∀ (env : TzEnv) (date : Instant) (d : TradingSessionDefinition),
      d.supportsDst ≠ some false →
      nameCheckInconclusive env date d.timeZone →
      computeDstLabel env (some d) date =
        (if getTimeZoneOffsetMinutes env date d.timeZone <
            standardOffsetBaseline env date d.timeZone
         then "夏令时 (DST)" else "冬令时 (标准时间)")) ∧
    (∀ (env : TzEnv) (d : TradingSessionDefinition) (date1 date2 : Instant),
      d.supportsDst ≠ some false →
      nameCheckInconclusive env date1 d.timeZone →
      nameCheckInconclusive env date2 d.timeZone →
      env.utcYear date1 = env.utcYear date2 →
      standardOffsetBaseline env date1 d.timeZone ≤
        getTimeZoneOffsetMinutes env date1 d.timeZone →
      getTimeZoneOffsetMinutes env date2 d.timeZone <
        standardOffsetBaseline env date1 d.timeZone →
      computeDstLabel env (some d) date1 = "冬令时 (标准时间)" ∧
      computeDstLabel env (some d) date2 = "夏令时 (DST)" ∧
      computeDstLabel env (some d) date1 ≠ computeDstLabel env (some d) date2) ∧
    computeDstLabel nyEnv (some usPreMarketDef) 50 = "冬令时 (标准时间)" ∧
    computeDstLabel nyEnv (some usPreMarketDef) 200 = "夏令时 (DST)" := by
  refine ⟨computeDstLabel_fallback, ?_, by decide, by decide⟩
  intro env d date1 date2 hdst hn1 hn2 hyear hstd hoff
  have hbase : standardOffsetBaseline env date2 d.timeZone =
      standardOffsetBaseline env date1 d.timeZone := by
    unfold standardOffsetBaseline
    rw [hyear]
  have e1 : computeDstLabel env (some d) date1 = "冬令时 (标准时间)" := by
    rw [computeDstLabel_fallback env date1 d hdst hn1, if_neg (by omega)]
  have e2 : computeDstLabel env (some d) date2 = "夏令时 (DST)" := by
    rw [computeDstLabel_fallback env date2 d hdst hn2, hbase, if_pos hoff]
  refine ⟨e1, e2, ?_⟩
  rw [e1, e2]
  decide

/-- Witness for C4: the offset fallback evaluated in `nyEnv` (no abbreviation,
January offset 300, July offset 240) at the standard-time instant 50 and the
daylight instant 200 of the same year. -/
theorem dst_offset_fallback_witness :
    usPreMarketDef.supportsDst ≠ some false ∧
    nameCheckInconclusive nyEnv 50 usPreMarketDef.timeZone ∧
    nameCheckInconclusive nyEnv 200 usPreMarketDef.timeZone ∧
    nyEnv.utcYear 50 = nyEnv.utcYear 200 ∧
    standardOffsetBaseline nyEnv 50 usPreMarketDef.timeZone ≤
      getTimeZoneOffsetMinutes nyEnv 50 usPreMarketDef.timeZone ∧
    getTimeZoneOffsetMinutes nyEnv 200 usPreMarketDef.timeZone <
      standardOffsetBaseline nyEnv 50 usPreMarketDef.timeZone ∧
    computeDstLabel nyEnv (some usPreMarketDef) 50 = "冬令时 (标准时间)" ∧
    computeDstLabel nyEnv (some usPreMarketDef) 200 = "夏令时 (DST)" ∧
    computeDstLabel nyEnv (some usPreMarketDef) 50 ≠
      computeDstLabel nyEnv (some usPreMarketDef) 200 := by
  refine ⟨by decide, trivial, trivial, by decide, by decide, by decide, ?_⟩
  exact dst_offset_fallback.2.1 nyEnv usPreMarketDef 50 200
    (by decide) trivial trivial (by decide) (by decide) (by decide)

/-! ### C6: a zero-window session is not rejected (no registry validation) -/

/-- A hypothetical session definition with zero configured windows. -/
def zeroWindowDef : TradingSessionDefinition :=
  { name := "零窗口"
    market := .us
    timeZone := "America/New_York"
    windows := [] }

/-- C6 counterexample: the engine has no registry-construction stage that
could reject a zero-window session — the catalog is a plain constant and the
classification functions are total.  Concretely, a zero-window definition
placed at the head of the US catalog is simply never active, and
classification over the extended catalog proceeds normally (at New York
minute 600 it still returns the Regular session, silently skipping the
invalid definition rather than failing). -/
theorem zero_window_not_rejected :
    isWithinWindow (constEnv 600) 0 zeroWindowDef = false ∧
    (zeroWindowDef :: usSessionList).find? (isWithinWindow (constEnv 600) 0) =
      some usRegularDef ∧
    usSessionList.find? (isWithinWindow (constEnv 600) 0) = some usRegularDef :=
  ⟨rfl, by decide, by decide⟩

/-- C6 amended: a session definition with zero windows is accepted (there is
no registry-construction validation to reject it); it is never active at any
instant, and classification over any catalog silently skips it instead of
surfacing an error. -/
theorem zero_window_silently_ignored :
    ∀ (env : TzEnv) (date : Instant) (d : TradingSessionDefinition),
      d.windows = [] →
      isWithinWindow env date d = false ∧
      (∀ defs : List TradingSessionDefinition,
        (d :: defs).find? (isWithinWindow env date) =
          defs.find? (isWithinWindow env date)) := by
  intro env date d hw
  have h : isWithinWindow env date d = false := by
    simp only [isWithinWindow, hw]
    rfl
  exact ⟨h, fun defs => List.find?_cons_of_neg _ (by simp [h])⟩

/-- Witness for C6's amended statement: the zero-window definition in front of
the US catalog at New York minute 600. -/
theorem zero_window_silently_ignored_witness :
    zeroWindowDef.windows = [] ∧
    isWithinWindow (constEnv 600) 0 zeroWindowDef = false ∧
    (zeroWindowDef :: usSessionList).find? (isWithinWindow (constEnv 600) 0) =
      usSessionList.find? (isWithinWindow (constEnv 600) 0) :=
  ⟨rfl, (zero_window_silently_ignored (constEnv 600) 0 zeroWindowDef rfl).1,
   (zero_window_silently_ignored (constEnv 600) 0 zeroWindowDef rfl).2 usSessionList⟩

end QBox
